import Mathlib

/-!
Verification of the SpellcheckJS wrappers (src/spellchecker.js and
src/WordBoundaryFinder.js) together with the standalone spell-checking and
word-segmentation core that the specification defines for the native
functions the wrappers call (Module._loadDictionary, Module._check,
Module._getSuggestions, Module._configureBreakIterator,
Module._findBoundaries).  The marshalling that the two JavaScript files
perform (building the ".aff"/".dic" file names, splitting the locale on
the underscore, reading result counts back from native memory as a single
unsigned byte, skipping null suggestion pointers) is embedded directly
from the source; the behaviour of the native functions themselves is
modelled from the specification.
-/

/-- Error kinds of the specification's section 7: MalformedSource,
UnknownLocale and NotConfigured, all reported via explicit result values. -/
inductive SpellError where
  | MalformedSource
  | UnknownLocale
  | NotConfigured
deriving DecidableEq

/-- Kind of an affix rule: a prefix rule strips/adds at the front of a word,
a suffix rule at the end. -/
inductive AffixKind where
  | pre
  | suf
deriving DecidableEq

/-- Modelled from the spec: an AffixRule has a flag, a kind (prefix or
suffix), a strip-string, an add-string and a condition-pattern constraining
the stem it may attach to (modelled as a boolean predicate on the stem). -/
structure AffixRule where
  flag : Char
  kind : AffixKind
  strip : String
  add : String
  cond : String → Bool

/-- Modelled from the spec: a DictionaryEntry is a base word, the set of
affix flags applicable to it, and an optional questionable marker. -/
structure DictionaryEntry where
  word : String
  flags : List Char
  questionable : Bool
deriving DecidableEq

/-- Modelled from the spec: the LoadedDictionary owns the Affix Rule Table
and the Dictionary Store for one locale. -/
structure LoadedDictionary where
  entries : List DictionaryEntry
  affixRules : List AffixRule

/-- Process-wide spell-checker state: at most one dictionary is active;
none is active before the first successful loadDictionary. -/
structure SpellState where
  dict : Option LoadedDictionary

/-- Modelled from the spec: looks a word-form up directly in the
Dictionary Store. -/
def lookupEntry (d : LoadedDictionary) (w : String) : Option DictionaryEntry :=
  d.entries.find? fun e => e.word == w

/-- Modelled from the spec: reduction of a word by one suffix rule — strip
the rule's add-string from the end and reattach the strip-string. -/
def sufStem (r : AffixRule) (w : String) : Option String :=
  match r.kind with
  | .suf =>
    if r.add.data.length ≤ w.data.length ∧
        w.data.drop (w.data.length - r.add.data.length) = r.add.data then
      some (String.mk (w.data.take (w.data.length - r.add.data.length) ++ r.strip.data))
    else none
  | .pre => none

/-- Modelled from the spec: reduction of a word by one prefix rule — strip
the rule's add-string from the front and reattach the strip-string. -/
def preStem (r : AffixRule) (w : String) : Option String :=
  match r.kind with
  | .pre =>
    if r.add.data.length ≤ w.data.length ∧ w.data.take r.add.data.length = r.add.data then
      some (String.mk (r.strip.data ++ w.data.drop r.add.data.length))
    else none
  | .suf => none

/-- Modelled from the spec: reduction of a word by one rule of either kind. -/
def ruleStem (r : AffixRule) (w : String) : Option String :=
  match r.kind with
  | .suf => sufStem r w
  | .pre => preStem r w

/-- Modelled from the spec: derive the word from a base form via a single
affix rule — reduce, check the condition pattern, look the stem up, and
require the entry to carry the rule's flag. -/
def entryViaRule (d : LoadedDictionary) (r : AffixRule) (w : String) : Option DictionaryEntry :=
  match ruleStem r w with
  | some stem =>
    if r.cond stem then
      match lookupEntry d stem with
      | some e => if e.flags.contains r.flag then some e else none
      | none => none
    else none
  | none => none

/-- Modelled from the spec: derive the word via a combination of exactly one
prefix rule and one suffix rule (no deeper recursion). -/
def entryViaPreSuf (d : LoadedDictionary) (w : String) : Option DictionaryEntry :=
  d.affixRules.findSome? fun rp =>
    match rp.kind with
    | .pre =>
      match preStem rp w with
      | some w1 =>
        d.affixRules.findSome? fun rs =>
          match rs.kind with
          | .suf =>
            match sufStem rs w1 with
            | some stem =>
              if rp.cond stem ∧ rs.cond stem then
                match lookupEntry d stem with
                | some e =>
                  if e.flags.contains rp.flag ∧ e.flags.contains rs.flag then some e else none
                | none => none
              else none
            | none => none
          | .pre => none
      | none => none
    | .suf => none

/-- Modelled from the spec: find the dictionary entry a word derives from —
direct lookup first, then every single affix rule, then combinations of at
most one prefix and one suffix. -/
def findEntry (d : LoadedDictionary) (w : String) : Option DictionaryEntry :=
  match lookupEntry d w with
  | some e => some e
  | none =>
    match d.affixRules.findSome? (fun r => entryViaRule d r w) with
    | some e => some e
    | none => entryViaPreSuf d w

namespace Spellchecker

/-- Embeds src/spellchecker.js loadDictionary: appends ".aff" and ".dic" to
the locale to name the two source files and hands them to the native
loader.  The native Module._loadDictionary is modelled from the spec: the
provider abstracts fetching and structural parsing of the two sources
(none when either is malformed or unavailable); on success the process-wide
dictionary is replaced atomically and a non-zero status is returned, on
failure the previous state is kept and zero is returned. -/
def loadDictionary (provider : String → String → Option LoadedDictionary)
    (st : SpellState) (sLanguageLocale : String) : SpellState × Nat :=
  match provider (sLanguageLocale ++ ".aff") (sLanguageLocale ++ ".dic") with
  | some d => (⟨some d⟩, 1)
  | none => (st, 0)

/-- Modelled from the spec: the alphabet of the loaded dictionary, used to
generate edit-distance-1 candidates. -/
def dictAlphabet (d : LoadedDictionary) : List Char :=
  (d.entries.foldr (fun e acc => e.word.data ++ acc) []).dedup

/-- Modelled from the spec: all single-character deletions of a word. -/
def deletions : List Char → List (List Char)
  | [] => []
  | c :: rest => rest :: (deletions rest).map (c :: ·)

/-- Modelled from the spec: all adjacent transpositions of a word. -/
def transpositions : List Char → List (List Char)
  | a :: b :: rest => (b :: a :: rest) :: (transpositions (b :: rest)).map (a :: ·)
  | _ => []

/-- Modelled from the spec: all single-character substitutions of a word
over the given alphabet. -/
def substitutions (alpha : List Char) : List Char → List (List Char)
  | [] => []
  | c :: rest => (alpha.map (· :: rest)) ++ (substitutions alpha rest).map (c :: ·)

/-- Modelled from the spec: all single-character insertions into a word
over the given alphabet. -/
def insertions (alpha : List Char) : List Char → List (List Char)
  | [] => alpha.map ([·])
  | c :: rest => (alpha.map (· :: c :: rest)) ++ (insertions alpha rest).map (c :: ·)

/-- Modelled from the spec: all edit-distance-1 transformations (deletion,
adjacent transposition, substitution, insertion) of a word over the
alphabet of the loaded dictionary. -/
def edits1 (alpha : List Char) (w : String) : List String :=
  (deletions w.data ++ transpositions w.data ++
    substitutions alpha w.data ++ insertions alpha w.data).map String.mk

/-- Modelled from the spec: splitting the word at every interior position
into two dictionary-valid sub-words. -/
def splitCands (d : LoadedDictionary) (w : String) : List String :=
  ((List.range w.data.length).drop 1).filterMap fun i =>
    if ((findEntry d (String.mk (w.data.take i))).isSome ∧
        (findEntry d (String.mk (w.data.drop i))).isSome) then
      some (String.mk (w.data.take i) ++ " " ++ String.mk (w.data.drop i))
    else none

/-- Modelled from the spec: the all-lowercase case variant of a word. -/
def lowerVariant (w : String) : String := String.mk (w.data.map Char.toLower)

/-- Modelled from the spec: the all-uppercase case variant of a word. -/
def upperVariant (w : String) : String := String.mk (w.data.map Char.toUpper)

/-- Modelled from the spec: the capitalized case variant of a word — first
character uppercase, the rest lowercase. -/
def capitalVariant (w : String) : String :=
  match w.data with
  | [] => ""
  | c :: rest => String.mk (c.toUpper :: rest.map Char.toLower)

/-- Modelled from the spec: the fixed maximum number of suggestions
returned, bounding latency. -/
def maxSuggestions : Nat := 15

/-- Modelled from the spec: the suggestion pipeline of the native
Module._getSuggestions — generate case variants, edit-distance-1
transformations and splits into two dictionary-valid sub-words, keep the
candidates present in the Dictionary Store after affix derivation, ordered
with case variants first (exact-case matches rank first), deduplicated and
capped at the fixed maximum count. -/
def computeSuggestions (d : LoadedDictionary) (w : String) : List String :=
  ((([lowerVariant w, capitalVariant w, upperVariant w] ++ edits1 (dictAlphabet d) w).filter
      (fun c => (findEntry d c).isSome) ++ splitCands d w).eraseDups).take maxSuggestions

/-- Embeds src/spellchecker.js check, with the native Module._check modelled
from the spec: with no dictionary loaded the call reports the NotConfigured
configuration error; otherwise the word is classified 0 (not found by any
derivation), 1 (found as a standard entry) or 2 (found but the entry
carries the questionable marker). -/
def check (st : SpellState) (sWord : String) : Except SpellError Nat :=
  match st.dict with
  | none => Except.error SpellError.NotConfigured
  | some d =>
    match findEntry d sWord with
    | none => Except.ok 0
    | some e => Except.ok (if e.questionable then 2 else 1)

/-- Embeds src/spellchecker.js suggest: the native Module._getSuggestions
(modelled from the spec as computeSuggestions) writes the suggestion list
and its count; the wrapper reads the count back from native memory as a
single unsigned byte and copies out that many suggestions.  With no
dictionary loaded the call reports the NotConfigured configuration error. -/
def suggest (st : SpellState) (sWord : String) : Except SpellError (List String) :=
  match st.dict with
  | none => Except.error SpellError.NotConfigured
  | some d =>
    Except.ok ((computeSuggestions d sWord).take ((computeSuggestions d sWord).length % 256))

end Spellchecker

/-- Embeds the result marshalling of src/spellchecker.js suggest (lines
107-119): the suggestion count is read from native memory as a single
unsigned byte (the low byte of whatever the native code wrote), that many
suggestion pointers are read from the 32-bit heap, and each non-null
pointer is dereferenced to a string while null pointers are skipped. -/
def marshalSuggestions (count : Nat) (ptrs : List Nat) (deref : Nat → String) : List String :=
  ((ptrs.take (count % 256)).filter (fun p => decide (p ≠ 0))).map deref

/-- Modelled from the spec: the character categories the Segmenter
classifies text into (letter, digit, punctuation, whitespace, other). -/
inductive CharCategory where
  | letter
  | digit
  | space
  | punct
  | other
deriving DecidableEq, BEq

/-- Modelled from the spec: a SegmenterConfig holds the locale identifier
(language and region components) and the locale's boundary classification
rules, modelled as a classification function on characters. -/
structure SegmenterConfig where
  language : String
  region : String
  classify : Char → CharCategory

/-- Process-wide segmenter state: at most one SegmenterConfig (one ICU
BreakIterator) is active; none is active before the first successful
configure. -/
structure SegState where
  cfg : Option SegmenterConfig

/-- True when the optional neighbouring character exists and classifies as
a letter under the active rules. -/
def isLetterOpt (cfg : SegmenterConfig) : Option Char → Bool
  | some c => cfg.classify c == CharCategory.letter
  | none => false

/-- True when the optional neighbouring character exists and classifies as
a digit under the active rules. -/
def isDigitOpt (cfg : SegmenterConfig) : Option Char → Bool
  | some c => cfg.classify c == CharCategory.digit
  | none => false

/-- Modelled from the spec: the effective category of a character given its
neighbours — an apostrophe between two letters stays inside the word and a
decimal point between two digits stays inside the number; every other
character keeps the category the locale rules assign it. -/
def effCat (cfg : SegmenterConfig) (prev : Option Char) (c : Char) (next : Option Char) :
    CharCategory :=
  if c == Char.ofNat 39 && isLetterOpt cfg prev && isLetterOpt cfg next then CharCategory.letter
  else if c == Char.ofNat 46 && isDigitOpt cfg prev && isDigitOpt cfg next then CharCategory.digit
  else cfg.classify c

/-- Effective categories of every character of a text, scanned left to
right with access to the previous and next character. -/
def catsAux (cfg : SegmenterConfig) : Option Char → List Char → List CharCategory
  | _, [] => []
  | prev, c :: rest => effCat cfg prev c rest.head? :: catsAux cfg (some c) rest

/-- Indices at which the effective category changes between two consecutive
characters: exactly the interior boundary offsets the Segmenter emits. -/
def changePoints (l : List CharCategory) : List Nat :=
  (List.range l.length).filter fun i => decide (0 < i ∧ l.get? i ≠ l.get? (i - 1))

/-- Modelled from the spec: the BoundaryList the native Module._findBoundaries
computes — empty for empty text, otherwise offset 0, an offset at every
point where the category of consecutive runs changes, and the text length. -/
def boundaryList (cfg : SegmenterConfig) (t : String) : List Nat :=
  match t.data with
  | [] => []
  | c :: cs => 0 :: changePoints (catsAux cfg none (c :: cs)) ++ [(c :: cs).length]

/-- Splitting a character sequence on a separator character, as the
JavaScript String split method does: the result always has one more group
than there are separator occurrences, and empty groups are kept. -/
def splitOnChar (sep : Char) : List Char → List (List Char)
  | [] => [[]]
  | c :: rest =>
    if c = sep then [] :: splitOnChar sep rest
    else
      match splitOnChar sep rest with
      | [] => [[c]]
      | g :: gs => (c :: g) :: gs

/-- The parts the wrapper obtains from the locale string: the JavaScript
split of the locale on the underscore separator. -/
def localeParts (sLanguageLocale : String) : List String :=
  (splitOnChar '_' sLanguageLocale.data).map String.mk

namespace WordBoundaryFinder

/-- Embeds src/WordBoundaryFinder.js configure: any existing BreakIterator
is freed first (Module._freeBreakIterator), then the locale string is split
on the underscore separator into a language component (parts[0]) and a
region component (parts[1], absent when the string has no underscore), and
the two components are handed to the native Module._configureBreakIterator,
modelled from the spec: it yields a new SegmenterConfig for a recognized
locale (status 1) and nothing for an unrecognized one (status 0). -/
def configure (nativeCfg : String → Option String → Option SegmenterConfig)
    (sg : SegState) (sLanguageLocale : String) : SegState × Nat :=
  match nativeCfg ((localeParts sLanguageLocale).headD "")
      ((localeParts sLanguageLocale).get? 1) with
  | some cfg => (⟨some cfg⟩, 1)
  | none => (⟨none⟩, 0)

/-- Embeds src/WordBoundaryFinder.js findBoundaries: the native
Module._findBoundaries (modelled from the spec as boundaryList, and
reporting the NotConfigured configuration error when no BreakIterator is
active) writes the boundary offsets and their count; the wrapper reads the
count back from native memory as a single unsigned byte and copies out
that many offsets from the 32-bit heap. -/
def findBoundaries (sg : SegState) (sText : String) : Except SpellError (List Nat) :=
  match sg.cfg with
  | none => Except.error SpellError.NotConfigured
  | some cfg =>
    Except.ok ((boundaryList cfg sText).take ((boundaryList cfg sText).length % 256))

end WordBoundaryFinder

/-- A small concrete dictionary used to evaluate the engine on closed
inputs: the base words hello and hell, no affix rules. -/
def exDict : LoadedDictionary :=
  ⟨[⟨"hello", [], false⟩, ⟨"hell", [], false⟩], []⟩

/-- Spell-checker state holding the concrete example dictionary. -/
def exSpellState : SpellState := ⟨some exDict⟩

/-- Concrete classification of characters for the en locale: letters,
digits, whitespace and punctuation. -/
def enClassify (c : Char) : CharCategory :=
  if c.isAlpha then CharCategory.letter
  else if c.isDigit then CharCategory.digit
  else if c.isWhitespace then CharCategory.space
  else CharCategory.punct

/-- Concrete SegmenterConfig for the en_US locale. -/
def enCfg : SegmenterConfig := ⟨"en", "US", enClassify⟩

/-- Concrete native configuration map recognizing exactly the en_US
locale. -/
def exNativeCfg (language : String) (region : Option String) : Option SegmenterConfig :=
  if language = "en" ∧ region = some "US" then some enCfg else none

/-- Segmenter state reached by configuring the en_US locale from the
initial state. -/
def exConfiguredSeg : SegState :=
  (WordBoundaryFinder.configure exNativeCfg ⟨none⟩ "en_US").1

/-- A 255-character text alternating a letter and a full stop, so that
every character is its own run and the native boundary count is 256. -/
def exLongText : String :=
  String.mk ((List.range 255).map fun i => if i % 2 = 0 then 'a' else Char.ofNat 46)

/-- A constant dereference function used to exercise the suggestion
marshalling on closed inputs. -/
def derefConst : Nat → String := fun _ => "s"

theorem catsAux_length (cfg : SegmenterConfig) :
    ∀ (p : Option Char) (cs : List Char), (catsAux cfg p cs).length = cs.length
  | _, [] => rfl
  | p, c :: rest => by
    simp only [catsAux, List.length_cons, catsAux_length cfg (some c) rest]

theorem changePoints_pairwise (l : List CharCategory) :
    (changePoints l).Pairwise (· < ·) :=
  List.Pairwise.sublist (List.filter_sublist _) (List.pairwise_lt_range _)

theorem changePoints_mem {l : List CharCategory} {i : Nat}
    (h : i ∈ changePoints l) : 0 < i ∧ i < l.length := by
  unfold changePoints at h
  rcases List.mem_filter.1 h with ⟨hr, hp⟩
  exact ⟨(of_decide_eq_true hp).1, List.mem_range.1 hr⟩

theorem string_data_nil {t : String} (h : t.data = []) : t = "" := by
  cases t with
  | mk d => cases h; rfl

theorem boundaryList_shape (cfg : SegmenterConfig) (t : String) :
    (boundaryList cfg t).Pairwise (· < ·) ∧
    (t.data = [] → boundaryList cfg t = []) ∧
    (t.data ≠ [] →
      (boundaryList cfg t).head? = some 0 ∧
      (boundaryList cfg t).getLast? = some t.length) := by
  cases h : t.data with
  | nil =>
    have hb : boundaryList cfg t = [] := by unfold boundaryList; rw [h]
    exact ⟨by rw [hb]; exact List.Pairwise.nil, fun _ => hb, fun hne => absurd rfl hne⟩
  | cons c cs =>
    have hb : boundaryList cfg t =
        0 :: changePoints (catsAux cfg none (c :: cs)) ++ [(c :: cs).length] := by
      unfold boundaryList; rw [h]
    have hlen : t.length = (c :: cs).length := by
      rw [show t.length = t.data.length from rfl, h]
    refine ⟨?_, fun hnil => absurd hnil (List.cons_ne_nil c cs), fun _ => ⟨?_, ?_⟩⟩
    · rw [hb]
      refine List.pairwise_cons.2 ⟨?_, ?_⟩
      · intro y hy
        rcases List.mem_append.1 hy with hy | hy
        · exact (changePoints_mem hy).1
        · rcases List.mem_singleton.1 hy with rfl
          exact Nat.succ_pos _
      · refine List.pairwise_append.2 ⟨changePoints_pairwise _, List.pairwise_singleton _ _, ?_⟩
        intro x hx y hy
        rcases List.mem_singleton.1 hy with rfl
        have hx2 := (changePoints_mem hx).2
        rwa [catsAux_length] at hx2
    · rw [hb]; rfl
    · rw [hb, hlen]
      show ((0 :: changePoints (catsAux cfg none (c :: cs))) ++ [(c :: cs).length]).getLast? = _
      exact List.getLast?_concat _

theorem computeSuggestions_length_le (d : LoadedDictionary) (w : String) :
    (Spellchecker.computeSuggestions d w).length ≤ 15 := by
  unfold Spellchecker.computeSuggestions
  exact List.length_take_le _ _

/-- C1: with a dictionary loaded, check(word) returns exactly one of 0, 1
or 2 for every word — 0 exactly when the word is found by no derivation,
1 exactly when it derives from a standard entry, and 2 exactly when it
derives from an entry carrying the questionable marker. -/
theorem check_ternary_classification (d : LoadedDictionary) (w : String) :
    ∃ n, Spellchecker.check ⟨some d⟩ w = Except.ok n ∧ (n = 0 ∨ n = 1 ∨ n = 2) ∧
      (n = 0 ↔ findEntry d w = none) ∧
      (n = 1 ↔ ∃ e, findEntry d w = some e ∧ e.questionable = false) ∧
      (n = 2 ↔ ∃ e, findEntry d w = some e ∧ e.questionable = true) := by
  cases hf : findEntry d w with
  | none =>
    exact ⟨0, by simp [Spellchecker.check, hf], Or.inl rfl, by simp [hf],
      by simp [hf], by simp [hf]⟩
  | some e =>
    cases hq : e.questionable with
    | false =>
      refine ⟨1, by simp [Spellchecker.check, hf, hq], Or.inr (Or.inl rfl),
        by simp [hf], ?_, ?_⟩
      · simp only [hf, true_iff, Option.some.injEq]
        exact ⟨e, rfl, hq⟩
      · simp [hf, hq]
    | true =>
      refine ⟨2, by simp [Spellchecker.check, hf, hq], Or.inr (Or.inr rfl),
        by simp [hf], ?_, ?_⟩
      · simp [hf, hq]
      · simp only [hf, true_iff, Option.some.injEq]
        exact ⟨e, rfl, hq⟩

/-- C2: before any successful loadDictionary, check and suggest report the
NotConfigured configuration error through their explicit result value, and
findBoundaries does the same before any successful configure; none of the
three calls crashes or aborts. -/
theorem not_configured_is_reported :
    (∀ (st : SpellState) (w : String), st.dict = none →
      Spellchecker.check st w = Except.error SpellError.NotConfigured ∧
      Spellchecker.suggest st w = Except.error SpellError.NotConfigured) ∧
    (∀ (sg : SegState) (t : String), sg.cfg = none →
      WordBoundaryFinder.findBoundaries sg t = Except.error SpellError.NotConfigured) := by
  constructor
  · intro st w h
    constructor
    · unfold Spellchecker.check; rw [h]
    · unfold Spellchecker.suggest; rw [h]
  · intro sg t h
    unfold WordBoundaryFinder.findBoundaries; rw [h]

/-- C2 witness: the NotConfigured reports evaluated at the initial states
and concrete inputs. -/
theorem not_configured_is_reported_witness :
    (Spellchecker.check ⟨none⟩ "hello" = Except.error SpellError.NotConfigured ∧
      Spellchecker.suggest ⟨none⟩ "hello" = Except.error SpellError.NotConfigured) ∧
    WordBoundaryFinder.findBoundaries ⟨none⟩ "hi" = Except.error SpellError.NotConfigured :=
  ⟨not_configured_is_reported.1 ⟨none⟩ "hello" rfl,
    not_configured_is_reported.2 ⟨none⟩ "hi" rfl⟩

/-- C5: configure(locale) splits the input on the underscore separator into
a language component and a region component, feeds them to the native
configuration, and returns 1 exactly when the locale is recognized and 0
otherwise — for every input the result is 0 or 1. -/
theorem configure_splits_and_status
    (nc : String → Option String → Option SegmenterConfig)
    (sg : SegState) (locale : String) :
    ((WordBoundaryFinder.configure nc sg locale).2 = 0 ∨
      (WordBoundaryFinder.configure nc sg locale).2 = 1) ∧
    (WordBoundaryFinder.configure nc sg locale).1.cfg =
      nc ((localeParts locale).headD "") ((localeParts locale).get? 1) ∧
    (WordBoundaryFinder.configure nc sg locale).2 =
      (if (nc ((localeParts locale).headD "") ((localeParts locale).get? 1)).isSome
        then 1 else 0) := by
  unfold WordBoundaryFinder.configure
  cases h : nc ((localeParts locale).headD "") ((localeParts locale).get? 1) with
  | none => exact ⟨Or.inl rfl, rfl, rfl⟩
  | some cfg => exact ⟨Or.inr rfl, rfl, rfl⟩

/-- C8: configuring the same locale twice in succession yields the same
findBoundaries output on every text as configuring it once — repeated
configuration with the same locale is idempotent for segmentation. -/
theorem configure_idempotent
    (nc : String → Option String → Option SegmenterConfig)
    (sg : SegState) (locale text : String) :
    WordBoundaryFinder.findBoundaries
        (WordBoundaryFinder.configure nc
          (WordBoundaryFinder.configure nc sg locale).1 locale).1 text =
      WordBoundaryFinder.findBoundaries
        (WordBoundaryFinder.configure nc sg locale).1 text := by
  have hst : ∀ (s s' : SegState),
      (WordBoundaryFinder.configure nc s locale).1 =
        (WordBoundaryFinder.configure nc s' locale).1 := by
    intro s s'
    unfold WordBoundaryFinder.configure
    cases nc ((localeParts locale).headD "") ((localeParts locale).get? 1) <;> rfl
  rw [hst (WordBoundaryFinder.configure nc sg locale).1 sg]

/-- C6: whenever check reports a word as correctly spelled (result 1 or 2),
suggest still returns the full computed suggestion list — it is not empty
by definition for correct words, as the concrete correct word hello shows:
check reports 1 and suggest returns a non-empty list. -/
theorem suggest_on_correct_words (d : LoadedDictionary) (w : String)
    (h : Spellchecker.check ⟨some d⟩ w = Except.ok 1 ∨
      Spellchecker.check ⟨some d⟩ w = Except.ok 2) :
    Spellchecker.suggest ⟨some d⟩ w = Except.ok (Spellchecker.computeSuggestions d w) ∧
    Spellchecker.check exSpellState "hello" = Except.ok 1 ∧
    Spellchecker.suggest exSpellState "hello" ≠ Except.ok [] := by
  refine ⟨?_, rfl, ?_⟩
  · have hmod : (Spellchecker.computeSuggestions d w).length % 256 =
        (Spellchecker.computeSuggestions d w).length :=
      Nat.mod_eq_of_lt (lt_of_le_of_lt (computeSuggestions_length_le d w) (by norm_num))
    have hs : Spellchecker.suggest ⟨some d⟩ w =
        Except.ok ((Spellchecker.computeSuggestions d w).take
          ((Spellchecker.computeSuggestions d w).length % 256)) := rfl
    rw [hs, hmod, List.take_length]
  · intro hc
    have he : Spellchecker.suggest exSpellState "hello" =
        Except.ok ["hello", "hell"] := by rfl
    rw [he] at hc
    injection hc with hc
    exact List.cons_ne_nil _ _ hc

/-- C6 witness: the conclusion of suggest_on_correct_words at the concrete
dictionary containing hello and hell and the correct word hello. -/
theorem suggest_on_correct_words_witness :
    Spellchecker.suggest ⟨some exDict⟩ "hello" =
      Except.ok (Spellchecker.computeSuggestions exDict "hello") ∧
    Spellchecker.check exSpellState "hello" = Except.ok 1 ∧
    Spellchecker.suggest exSpellState "hello" ≠ Except.ok [] :=
  suggest_on_correct_words exDict "hello" (Or.inl rfl)

/-- C7: every successful suggest call returns at most the fixed maximum of
15 suggestions, however many candidates exist. -/
theorem suggest_capped (st : SpellState) (w : String) (l : List String)
    (h : Spellchecker.suggest st w = Except.ok l) : l.length ≤ 15 := by
  cases hd : st.dict with
  | none =>
    unfold Spellchecker.suggest at h
    rw [hd] at h
    exact Except.noConfusion h
  | some d =>
    unfold Spellchecker.suggest at h
    rw [hd] at h
    have h' : Except.ok ((Spellchecker.computeSuggestions d w).take
        ((Spellchecker.computeSuggestions d w).length % 256)) = Except.ok l := h
    injection h' with h'
    rw [← h']
    exact le_trans (le_trans (List.length_take_le _ _) (Nat.mod_le _ _))
      (computeSuggestions_length_le d w)

/-- List of suggestions the engine produces for the concrete misspelled
word helo. -/
def c7List : List String := (Spellchecker.suggest exSpellState "helo").toOption.getD []

/-- C7 witness: the suggestion cap evaluated on the concrete misspelled
word helo against the concrete dictionary. -/
theorem suggest_capped_witness :
    Spellchecker.suggest exSpellState "helo" = Except.ok c7List ∧ c7List.length ≤ 15 :=
  ⟨rfl, suggest_capped exSpellState "helo" c7List rfl⟩

/-- C9: every successful findBoundaries call returns at most 255 offsets:
the wrapper reads the boundary count back from native memory as a single
unsigned byte, so the number of offsets copied out is the native count
reduced modulo 256. -/
theorem findBoundaries_count_byte (sg : SegState) (cfg : SegmenterConfig)
    (t : String) (l : List Nat) (hc : sg.cfg = some cfg)
    (h : WordBoundaryFinder.findBoundaries sg t = Except.ok l) :
    l.length ≤ 255 ∧ l.length = (boundaryList cfg t).length % 256 ∧
    l = (boundaryList cfg t).take ((boundaryList cfg t).length % 256) := by
  unfold WordBoundaryFinder.findBoundaries at h
  rw [hc] at h
  have h' : Except.ok ((boundaryList cfg t).take
      ((boundaryList cfg t).length % 256)) = Except.ok l := h
  injection h' with h'
  subst h'
  refine ⟨?_, ?_, rfl⟩
  · have h1 := List.length_take_le ((boundaryList cfg t).length % 256) (boundaryList cfg t)
    have h2 : (boundaryList cfg t).length % 256 < 256 := Nat.mod_lt _ (by norm_num)
    omega
  · rw [List.length_take]
    exact Nat.min_eq_left (Nat.mod_le _ _)

/-- C9 witness: the byte-width count marshalling evaluated at the
configured en_US segmenter and the concrete text hi. -/
theorem findBoundaries_count_byte_witness :
    ([0, 2] : List Nat).length ≤ 255 ∧
    ([0, 2] : List Nat).length = (boundaryList enCfg "hi").length % 256 ∧
    ([0, 2] : List Nat) =
      (boundaryList enCfg "hi").take ((boundaryList enCfg "hi").length % 256) :=
  findBoundaries_count_byte exConfiguredSeg enCfg "hi" [0, 2] (by rfl) (by rfl)

/-- C10: the suggestion marshalling returns at most 255 entries — the count
is read back as a single unsigned byte (modulo 256), only that many
suggestion pointers are read, and every returned entry comes from a
non-null pointer: null pointers are skipped. -/
theorem marshal_suggestions_count_byte (count : Nat) (ptrs : List Nat)
    (deref : Nat → String) (s : String)
    (h : s ∈ marshalSuggestions count ptrs deref) :
    (marshalSuggestions count ptrs deref).length ≤ 255 ∧
    ∃ p, p ∈ ptrs ∧ p ≠ 0 ∧ s = deref p := by
  constructor
  · unfold marshalSuggestions
    rw [List.length_map]
    have h1 := List.length_filter_le (fun p => decide (p ≠ 0)) (ptrs.take (count % 256))
    have h2 := List.length_take_le (count % 256) ptrs
    have h3 : count % 256 < 256 := Nat.mod_lt _ (by norm_num)
    omega
  · unfold marshalSuggestions at h
    rcases List.mem_map.1 h with ⟨p, hp, rfl⟩
    rcases List.mem_filter.1 hp with ⟨hptake, hpz⟩
    exact ⟨p, (List.take_sublist _ _).subset hptake, of_decide_eq_true hpz, rfl⟩

/-- C10 witness: the suggestion marshalling evaluated at a native count of
300 (byte value 44) and a pointer array holding one null pointer. -/
theorem marshal_suggestions_count_byte_witness :
    (marshalSuggestions 300 [5, 0, 7] derefConst).length ≤ 255 ∧
    ∃ p, p ∈ [5, 0, 7] ∧ p ≠ 0 ∧ "s" = derefConst p :=
  marshal_suggestions_count_byte 300 [5, 0, 7] derefConst "s" (by decide)

/-- C3 counterexample: configure frees the existing BreakIterator before
attempting the new configuration, so after a failed configure (status 0)
of the unrecognized locale zz_ZZ the previously valid en_US configuration
is gone: findBoundaries, which succeeded before the failed call, now
reports NotConfigured. -/
theorem failed_configure_drops_previous_config :
    exConfiguredSeg.cfg.isSome = true ∧
    (WordBoundaryFinder.configure exNativeCfg exConfiguredSeg "zz_ZZ").2 = 0 ∧
    (WordBoundaryFinder.configure exNativeCfg exConfiguredSeg "zz_ZZ").1.cfg = none ∧
    WordBoundaryFinder.findBoundaries exConfiguredSeg "hi" = Except.ok [0, 2] ∧
    WordBoundaryFinder.findBoundaries
        (WordBoundaryFinder.configure exNativeCfg exConfiguredSeg "zz_ZZ").1 "hi" =
      Except.error SpellError.NotConfigured :=
  ⟨by rfl, by rfl, by rfl, by rfl, by rfl⟩

/-- C3 (amended): a failed loadDictionary retains the previous dictionary,
observably so for subsequent check calls; a failed configure, however,
leaves the segmenter unconfigured because the existing BreakIterator is
freed before the new configuration is attempted. -/
theorem failed_load_keeps_dictionary (provider : String → String → Option LoadedDictionary)
    (st : SpellState) (loc w : String)
    (nc : String → Option String → Option SegmenterConfig) (sg : SegState) (locB : String)
    (hp : provider (loc ++ ".aff") (loc ++ ".dic") = none)
    (hn : nc ((localeParts locB).headD "") ((localeParts locB).get? 1) = none) :
    Spellchecker.loadDictionary provider st loc = (st, 0) ∧
    Spellchecker.check (Spellchecker.loadDictionary provider st loc).1 w =
      Spellchecker.check st w ∧
    WordBoundaryFinder.configure nc sg locB = (⟨none⟩, 0) := by
  have h1 : Spellchecker.loadDictionary provider st loc = (st, 0) := by
    unfold Spellchecker.loadDictionary; rw [hp]
  refine ⟨h1, by rw [h1], ?_⟩
  unfold WordBoundaryFinder.configure
  rw [hn]

/-- C3 witness: the amended retention behaviour evaluated at a provider
that fails on every locale, the loaded example dictionary, and the failed
configure of the unrecognized locale zz_ZZ. -/
theorem failed_load_keeps_dictionary_witness :
    Spellchecker.loadDictionary (fun _ _ => none) exSpellState "xx" = (exSpellState, 0) ∧
    Spellchecker.check
        (Spellchecker.loadDictionary (fun _ _ => none) exSpellState "xx").1 "hello" =
      Spellchecker.check exSpellState "hello" ∧
    WordBoundaryFinder.configure exNativeCfg exConfiguredSeg "zz_ZZ" = (⟨none⟩, 0) :=
  failed_load_keeps_dictionary (fun _ _ => none) exSpellState "xx" "hello"
    exNativeCfg exConfiguredSeg "zz_ZZ" rfl (by rfl)

set_option maxRecDepth 8000 in
/-- C4 counterexample: a 255-character text whose characters are all
separate runs produces 256 native boundary offsets; the wrapper reads the
count back as a single unsigned byte (256 mod 256 = 0) and returns an
empty array, which neither starts at 0 nor ends at the text length 255. -/
theorem long_text_boundaries_truncated :
    exLongText.length = 255 ∧ exLongText ≠ "" ∧
    (boundaryList enCfg exLongText).length = 256 ∧
    WordBoundaryFinder.findBoundaries exConfiguredSeg exLongText = Except.ok [] :=
  ⟨by rfl, by decide, by rfl, by rfl⟩

/-- C4 (amended): whenever the native boundary count fits the single count
byte (fewer than 256 offsets), findBoundaries returns a strictly
increasing sequence that starts at 0 and ends at the text length, and the
empty text yields an empty list. -/
theorem findBoundaries_shape_bounded (sg : SegState) (cfg : SegmenterConfig)
    (t : String) (l : List Nat) (hc : sg.cfg = some cfg)
    (hb : (boundaryList cfg t).length < 256)
    (h : WordBoundaryFinder.findBoundaries sg t = Except.ok l) :
    l.Pairwise (· < ·) ∧ (t = "" → l = []) ∧
    (t ≠ "" → l.head? = some 0 ∧ l.getLast? = some t.length) := by
  unfold WordBoundaryFinder.findBoundaries at h
  rw [hc] at h
  have h' : Except.ok ((boundaryList cfg t).take
      ((boundaryList cfg t).length % 256)) = Except.ok l := h
  injection h' with h'
  rw [Nat.mod_eq_of_lt hb, List.take_length] at h'
  subst h'
  obtain ⟨h1, h2, h3⟩ := boundaryList_shape cfg t
  refine ⟨h1, ?_, ?_⟩
  · intro ht
    exact h2 (by rw [ht])
  · intro ht
    exact h3 fun hnil => ht (string_data_nil hnil)

/-- C4 witness: the bounded boundary shape evaluated at the configured
en_US segmenter and the concrete text hi. -/
theorem findBoundaries_shape_bounded_witness :
    ([0, 2] : List Nat).Pairwise (· < ·) ∧ ("hi" = "" → ([0, 2] : List Nat) = []) ∧
    ("hi" ≠ "" → ([0, 2] : List Nat).head? = some 0 ∧
      ([0, 2] : List Nat).getLast? = some "hi".length) :=
  findBoundaries_shape_bounded exConfiguredSeg enCfg "hi" [0, 2] (by rfl) (by decide) (by rfl)
